/-
Verification of scoring and bias-detection components of the
AI-Resume-Screening-Agent repository.

Shallow embedding conventions:
* Python floats are modelled as rationals (ℚ); the vector mathematics of the
  embeddings module is modelled over ℝ.
* Python dictionaries for resumes are modelled as structures; a field that may
  be absent or `None` is an `Option`.
* Python exceptions (ZeroDivisionError, IndexError) are modelled with `Except`.
* Free-text payloads (flag messages, recommendations, details, report
  summaries) carry no verified content and are elided from the flag model;
  flags are identified by their `severity` and `category` fields.
-/
import Mathlib

namespace ResumeScreening

/-! ## Data model (parsed resume records, `scoring.py` / `bias_detection.py`)

A parsed resume is a Python dict; `scoring.py` reads
`skills` (default `[]`), `experience_years` (may be `None`),
`education` (default `[]`, entries with a `degree` key), and
`bias_detection.py` additionally reads `name`, `email`, `phone`.
-/

/-- One education entry: a dict read via `e.get('degree', '')`. -/
structure Education where
  degree : Option String
deriving Repr, DecidableEq

/-- A parsed resume record.  `none` models an absent key or `None` value;
`skills`/`education` are read with default `[]` everywhere they are used. -/
structure Resume where
  name : Option String := none
  email : Option String := none
  phone : Option String := none
  skills : List String := []
  experience_years : Option ℚ := none
  education : List Education := []
  summary : Option String := none
deriving Repr, DecidableEq

/-! ## Python string primitives

Lean's own `String.toLower`, `String.trim` and `String.splitOn` are defined
by recursion on byte positions, which the kernel cannot evaluate; the Python
string methods are therefore modelled directly on character lists (Python's
semantics for the ASCII inputs of this repository).  `isSpaceChar` is
Python's whitespace class `\s` / `str.strip` set. -/

/-- Python's whitespace characters (space, tab, newline, carriage return,
vertical tab, form feed). -/
def isSpaceChar (c : Char) : Bool :=
  c = ' ' || c = '\t' || c = '\n' || c = '\r' || c = '\x0b' || c = '\x0c'

/-- Python `\w` (ASCII range): letters, digits, underscore. -/
def isWordChar (c : Char) : Bool := c.isAlphanum || c = '_'

/-- Python `str.lower()` (ASCII). -/
def pyLower (s : String) : String := ⟨s.data.map Char.toLower⟩

/-- Python `str.strip()`: remove leading and trailing whitespace. -/
def pyStrip (s : String) : String :=
  ⟨((s.data.dropWhile isSpaceChar).reverse.dropWhile isSpaceChar).reverse⟩

/-- Python `sep.join(parts)`. -/
def pyJoin (sep : String) (parts : List String) : String :=
  ⟨List.intercalate sep.data (parts.map String.data)⟩

/-- Python `str.split(sep)` for a one-character separator. -/
def splitOnChar (sep : Char) (cs : List Char) : List (List Char) :=
  cs.foldr
    (fun x acc =>
      match acc with
      | [] => if x = sep then [[], []] else [[x]]
      | h :: t => if x = sep then [] :: h :: t else (x :: h) :: t)
    [[]]

/-! ## `scoring.py`: ScoreBreakdown -/

/-- `ScoreBreakdown` dataclass (scoring.py lines 30-48). -/
structure ScoreBreakdown where
  skill_match_score : ℚ
  experience_score : ℚ
  education_score : ℚ
  semantic_similarity_score : ℚ
  final_score : ℚ
  matched_skills : List String
  missing_skills : List String
  experience_years : Option ℚ
  required_experience : Option ℚ
  has_required_degree : Bool
deriving Repr, DecidableEq

/-- Values stored in the flat dict produced by `ScoreBreakdown.to_dict`
(`dataclasses.asdict`). -/
inductive PyValue where
  | num (q : ℚ)
  | optNum (o : Option ℚ)
  | strList (l : List String)
  | bool (b : Bool)
deriving Repr, DecidableEq

/-- `ScoreBreakdown.to_dict` (scoring.py line 46-48): `dataclasses.asdict`
produces a flat field-name/value record. -/
def ScoreBreakdown.to_dict (b : ScoreBreakdown) : List (String × PyValue) :=
  [ ("skill_match_score", .num b.skill_match_score),
    ("experience_score", .num b.experience_score),
    ("education_score", .num b.education_score),
    ("semantic_similarity_score", .num b.semantic_similarity_score),
    ("final_score", .num b.final_score),
    ("matched_skills", .strList b.matched_skills),
    ("missing_skills", .strList b.missing_skills),
    ("experience_years", .optNum b.experience_years),
    ("required_experience", .optNum b.required_experience),
    ("has_required_degree", .bool b.has_required_degree) ]

/-- Reconstruction of a `ScoreBreakdown` from its flat dict record
(`ScoreBreakdown(**d)`): each field is looked up by name and must carry a
value of the field's type. -/
def ScoreBreakdown.of_dict (d : List (String × PyValue)) : Option ScoreBreakdown :=
  match d.lookup "skill_match_score", d.lookup "experience_score",
        d.lookup "education_score", d.lookup "semantic_similarity_score",
        d.lookup "final_score", d.lookup "matched_skills",
        d.lookup "missing_skills", d.lookup "experience_years",
        d.lookup "required_experience", d.lookup "has_required_degree" with
  | some (.num a), some (.num b), some (.num c), some (.num e), some (.num f),
    some (.strList ms), some (.strList mis), some (.optNum ey),
    some (.optNum re), some (.bool hd) =>
      some ⟨a, b, c, e, f, ms, mis, ey, re, hd⟩
  | _, _, _, _, _, _, _, _, _, _ => none

/-! ## `scoring.py`: component scores -/

/-- Python `skill.lower().strip()` normalization used on both skill lists
(scoring.py lines 212-214). -/
def normSkill (s : String) : String := pyStrip (pyLower s)

/-- `ResumeScorer._calculate_skill_match_score` (scoring.py lines 194-230).
Returns `(score, matched_skills, missing_skills)`.  Python's sets of
normalized skills are modelled as `Finset String`; the display list
`missing_skills` (Python `list(missing)`, set order unspecified) is modelled
as the deduplicated required list filtered to the missing ones. -/
def calculate_skill_match_score (resume_skills required_skills : List String) :
    ℚ × List String × List String :=
  if required_skills = [] then (1, [], [])
  else
    let resume_norm : Finset String := (resume_skills.map normSkill).toFinset
    let required_norm : Finset String := (required_skills.map normSkill).toFinset
    let matched : Finset String := resume_norm ∩ required_norm
    let score : ℚ :=
      if required_norm.card = 0 then 1
      else (matched.card : ℚ) / (required_norm.card : ℚ)
    (score,
     resume_skills.filter (fun s => normSkill s ∈ matched),
     (required_skills.map normSkill).dedup.filter (fun s => s ∉ resume_norm))

/-- `ResumeScorer._calculate_experience_score` (scoring.py lines 232-262). -/
def calculate_experience_score
    (resume_experience required_experience : Option ℚ) : ℚ :=
  match required_experience with
  | none => 1
  | some req =>
    if req = 0 then 1
    else
      match resume_experience with
      | none => 0
      | some exp =>
        if req ≤ exp then
          min 1 (1 + min ((exp - req) / req) (2/10))
        else
          exp / req

/-- The degree hierarchy dict of `_calculate_education_score`
(scoring.py lines 286-305), in Python insertion order. -/
def degreeHierarchy : List (String × ℚ) :=
  [ ("phd", 4), ("doctorate", 4), ("ph.d", 4), ("doctor", 4),
    ("master", 3), ("ms", 3), ("m.s", 3), ("ma", 3), ("m.a", 3), ("mba", 3),
    ("bachelor", 2), ("bs", 2), ("b.s", 2), ("ba", 2), ("b.a", 2),
    ("associate", 1), ("diploma", mkRat 1 2), ("certificate", mkRat 3 10) ]

/-- Contiguous-substring occurrence check on character lists. -/
def hasSub (needle : List Char) : List Char → Bool
  | [] => needle.isEmpty
  | c :: rest => needle.isPrefixOf (c :: rest) || hasSub needle rest

/-- Python's substring test `needle in hay` on strings. -/
def substrB (needle hay : String) : Bool :=
  hasSub needle.toList hay.toList

/-- The required-degree level computed by `_calculate_education_score`
(scoring.py lines 307-313): the level of the first hierarchy key occurring in
the normalized required-degree text (the loop `break`s at the first hit),
`0` when no key occurs. -/
def requiredLevelOf (required_normalized : String) : ℚ :=
  match degreeHierarchy.find? (fun kl => substrB kl.1 required_normalized) with
  | some kl => kl.2
  | none => 0

/-- `ResumeScorer._calculate_education_score` (scoring.py lines 264-324).
`if not required_degree` is Python falsiness: `None` or the empty string. -/
def calculate_education_score
    (resume_education : List Education) (required_degree : Option String) : ℚ :=
  match required_degree with
  | none => 1
  | some rd =>
    if rd = "" then 1
    else if resume_education = [] then 0
    else
      let required_level := requiredLevelOf (pyStrip (pyLower rd))
      if resume_education.any (fun e =>
          degreeHierarchy.any (fun kl =>
            substrB kl.1 (pyStrip (pyLower (e.degree.getD ""))) &&
            decide (required_level ≤ kl.2))) then 1
      else 0

/-! ## `scoring.py`: requirement extraction from the job text

The two regex-based extractors are compiled by hand to character-list
matchers.  All regex pieces used by the source are compiled literally:
`\s` is the ASCII whitespace class, `\d+` a greedy digit run (no
backtracking is needed because every digit run is followed by a
disjoint character class), `.` matches any character except a newline. -/

/-- Match a literal, returning the rest of the input. -/
def litM (lit : List Char) (cs : List Char) : Option (List Char) :=
  if lit.isPrefixOf cs then some (cs.drop lit.length) else none

/-- `\s*` -/
def dropSpaces (cs : List Char) : List Char := cs.dropWhile isSpaceChar

/-- `\s+` -/
def spaces1 : List Char → Option (List Char)
  | [] => none
  | c :: rest => if isSpaceChar c then some (rest.dropWhile isSpaceChar) else none

/-- Digit run to its numeric value. -/
def digitsToNat (ds : List Char) : ℕ :=
  ds.foldl (fun n c => 10 * n + (c.toNat - 48)) 0

/-- `(\d+)` (greedy). -/
def digitsM (cs : List Char) : Option (ℕ × List Char) :=
  match cs.span Char.isDigit with
  | (ds, rest) => if ds = [] then none else some (digitsToNat ds, rest)

/-- `\+?` -/
def optPlus : List Char → List Char
  | '+' :: r => r
  | cs => cs

/-- Optional trailing `s` of `years?`. -/
def optS : List Char → List Char
  | 's' :: r => r
  | cs => cs

/-- `(?:of\s+)?` (the group needs both the literal and following whitespace). -/
def optOfSp (cs : List Char) : List Char :=
  match litM "of".toList cs with
  | some r =>
    match spaces1 r with
    | some r2 => r2
    | none => cs
  | none => cs

/-- `[:\s]+` -/
def colonSpaces1 : List Char → Option (List Char)
  | [] => none
  | c :: rest =>
    if c = ':' || isSpaceChar c then
      some (rest.dropWhile (fun d => d = ':' || isSpaceChar d))
    else none

/-- `(\d+)\+?\s*years?\s+(?:of\s+)?experience` anchored at the position. -/
def expPat1At (cs : List Char) : Option ℕ := do
  let (n, r1) ← digitsM cs
  let r2 ← litM "year".toList (dropSpaces (optPlus r1))
  let r3 ← spaces1 (optS r2)
  let _ ← litM "experience".toList (optOfSp r3)
  pure n

/-- `experience[:\s]+(\d+)\+?\s*years?` anchored at the position. -/
def expPat2At (cs : List Char) : Option ℕ := do
  let r1 ← litM "experience".toList cs
  let r2 ← colonSpaces1 r1
  let (n, r3) ← digitsM r2
  let _ ← litM "year".toList (dropSpaces (optPlus r3))
  pure n

/-- `minimum\s+(?:of\s+)?(\d+)\+?\s*years?` anchored at the position. -/
def expPat3At (cs : List Char) : Option ℕ := do
  let r1 ← litM "minimum".toList cs
  let r2 ← spaces1 r1
  let (n, r3) ← digitsM (optOfSp r2)
  let _ ← litM "year".toList (dropSpaces (optPlus r3))
  pure n

/-- `at\s+least\s+(\d+)\+?\s*years?` anchored at the position. -/
def expPat4At (cs : List Char) : Option ℕ := do
  let r1 ← litM "at".toList cs
  let r2 ← spaces1 r1
  let r3 ← litM "least".toList r2
  let r4 ← spaces1 r3
  let (n, r5) ← digitsM r4
  let _ ← litM "year".toList (dropSpaces (optPlus r5))
  pure n

/-- Leftmost match of an anchored pattern (`re.findall(...)[0]`). -/
def scanFirst (patAt : List Char → Option ℕ) : List Char → Option ℕ
  | [] => patAt []
  | c :: rest =>
    match patAt (c :: rest) with
    | some n => some n
    | none => scanFirst patAt rest

/-- `ResumeScorer._extract_required_experience` (scoring.py lines 451-476):
try the four patterns in order on the lowercased text, returning the first
pattern's leftmost captured number. -/
def extract_required_experience (text : String) : Option ℚ :=
  let tl := (pyLower text).toList
  match scanFirst expPat1At tl with
  | some n => some (n : ℚ)
  | none =>
    match scanFirst expPat2At tl with
    | some n => some (n : ℚ)
    | none =>
      match scanFirst expPat3At tl with
      | some n => some (n : ℚ)
      | none =>
        match scanFirst expPat4At tl with
        | some n => some (n : ℚ)
        | none => none

/-- `.*b` anchored at the position: a newline-free gap followed by `b`. -/
def gapThen (b : List Char) : List Char → Bool
  | [] => b.isEmpty
  | c :: rest => b.isPrefixOf (c :: rest) || (decide (c ≠ '\n') && gapThen b rest)

/-- `re.search(a.*b)`: some position starts `a`, followed (on the same line)
by `b`.  The source's `require[ds]?.*kw` is equivalent to `require.*kw`
because `.*` can absorb the optional `d`/`s` itself. -/
def existsThen (a b : List Char) : List Char → Bool
  | [] => a.isPrefixOf [] && gapThen b []
  | c :: rest =>
    (a.isPrefixOf (c :: rest) && gapThen b ((c :: rest).drop a.length)) ||
    existsThen a b rest

/-- The degree keyword dict of `_extract_required_degree`
(scoring.py lines 491-495), in Python insertion order. -/
def degreeKeywords : List (String × List String) :=
  [ ("phd", ["phd", "ph.d", "doctorate", "doctoral"]),
    ("master", ["master", "masters", "ms", "m.s", "ma", "m.a", "mba"]),
    ("bachelor", ["bachelor", "bachelors", "bs", "b.s", "ba", "b.a"]) ]

/-- Python `str.capitalize()`. -/
def capitalizeStr (s : String) : String :=
  match s.toList with
  | [] => ""
  | c :: r => ⟨c.toUpper :: r.map Char.toLower⟩

/-- `ResumeScorer._extract_required_degree` (scoring.py lines 478-512):
first degree type whose keyword occurs in the lowercased text in one of the
four "required" contexts. -/
def extract_required_degree (text : String) : Option String :=
  let tl := (pyLower text).toList
  degreeKeywords.findSome? (fun dk =>
    dk.2.findSome? (fun kw =>
      if hasSub kw.toList tl then
        if existsThen "require".toList kw.toList tl ||
           existsThen kw.toList "require".toList tl ||
           existsThen "must have".toList kw.toList tl ||
           existsThen kw.toList "degree".toList tl
        then some (capitalizeStr dk.1)
        else none
      else none))

/-- The fixed skill vocabulary of `_extract_skills_from_text`
(scoring.py lines 415-440). -/
def skillDatabase : List String :=
  [ "python", "java", "javascript", "typescript", "c++", "c#", "ruby", "go",
    "rust", "php", "swift", "kotlin", "scala", "r", "matlab", "perl",
    "react", "angular", "vue", "django", "flask", "spring", "express",
    "node.js", "next.js", "fastapi", "asp.net", "laravel",
    "sql", "mysql", "postgresql", "mongodb", "redis", "elasticsearch",
    "dynamodb", "cassandra", "oracle", "sqlite",
    "aws", "azure", "gcp", "docker", "kubernetes", "jenkins", "terraform",
    "ansible", "ci/cd", "git", "github", "gitlab",
    "machine learning", "deep learning", "nlp", "computer vision",
    "tensorflow", "pytorch", "scikit-learn", "pandas", "numpy",
    "spark", "hadoop", "kafka",
    "agile", "scrum", "jira", "rest api", "graphql", "microservices",
    "testing", "unit testing", "tdd" ]

/-- Python `str.title()` (ASCII): a letter is uppercased when the previous
character is not a letter, lowercased otherwise. -/
def titleCaseGo : Bool → List Char → List Char
  | _, [] => []
  | prevAlpha, c :: rest =>
    (if c.isAlpha then (if prevAlpha then c.toLower else c.toUpper) else c) ::
    titleCaseGo c.isAlpha rest

/-- Python `str.title()`. -/
def titleCase (s : String) : String := ⟨titleCaseGo false s.toList⟩

/-- `ResumeScorer._extract_skills_from_text` (scoring.py lines 404-449). -/
def extract_skills_from_text (text : String) : List String :=
  (skillDatabase.filter (fun sk => substrB sk (pyLower text))).map titleCase

/-! ## `scoring.py`: fallback text similarity -/

/-- `re.findall(r'\b\w+\b', text)` up to set conversion: the maximal
word-character runs of the text. -/
def splitWordRuns (cs : List Char) : List String :=
  let p := cs.foldr
    (fun c (acc : List Char × List String) =>
      if isWordChar c then (c :: acc.1, acc.2)
      else ([], if acc.1 = [] then acc.2 else (⟨acc.1⟩ : String) :: acc.2))
    ([], [])
  if p.1 = [] then p.2 else (⟨p.1⟩ : String) :: p.2

/-- The stop-word set of `_fallback_text_similarity` (scoring.py line 388). -/
def stopWords : List String :=
  ["the", "a", "an", "and", "or", "but", "in", "on", "at", "to", "for",
   "of", "with", "by"]

/-- `ResumeScorer._fallback_text_similarity` (scoring.py lines 357-402):
Jaccard similarity of stop-word-filtered word sets; `0.5` when the job
description yields no words. -/
def fallback_text_similarity (resume : Resume) (job_description : String) : ℚ :=
  let resume_parts : List String :=
    (match resume.summary with
     | some s => if s = "" then [] else [s]
     | none => []) ++
    (if resume.skills = [] then [] else [pyJoin " " resume.skills])
  let resume_text := pyLower (pyJoin " " resume_parts)
  let jd_text := pyLower job_description
  let resume_words : Finset String :=
    (splitWordRuns resume_text.toList).toFinset \ stopWords.toFinset
  let jd_words : Finset String :=
    (splitWordRuns jd_text.toList).toFinset \ stopWords.toFinset
  if jd_words = ∅ then 1/2
  else
    let inter := (resume_words ∩ jd_words).card
    let un := (resume_words ∪ jd_words).card
    if un = 0 then 0 else (inter : ℚ) / (un : ℚ)

/-! ## `scoring.py`: ResumeScorer -/

/-- `np.isclose(a, b)` with numpy's default tolerances
`rtol = 1e-5`, `atol = 1e-8`: `|a - b| <= atol + rtol * |b|`. -/
def npIsClose (a b : ℚ) : Bool :=
  decide (|a - b| ≤ 1e-8 + 1e-5 * |b|)

/-- The scorer's state after a successful `__init__`.  The
`embeddings_manager` collaborator is an injected external object (network /
model inference); it is modelled as an optional function that may fail,
mirroring the `try/except` in `_calculate_semantic_similarity_score`. -/
structure ResumeScorer where
  skill_weight : ℚ
  experience_weight : ℚ
  education_weight : ℚ
  semantic_weight : ℚ
  embeddings_manager : Option (Resume → String → Except String ℚ)

/-- `ResumeScorer.__init__` (scoring.py lines 89-116): validates that the
four weights sum to 1.0 (via `np.isclose`) and raises `ValueError`
otherwise. -/
def mkResumeScorer (skill_weight experience_weight education_weight
    semantic_weight : ℚ)
    (embeddings_manager : Option (Resume → String → Except String ℚ)) :
    Except String ResumeScorer :=
  let total_weight :=
    skill_weight + experience_weight + education_weight + semantic_weight
  if npIsClose total_weight 1 then
    .ok ⟨skill_weight, experience_weight, education_weight, semantic_weight,
         embeddings_manager⟩
  else
    .error "ValueError: Weights must sum to 1.0"

/-- `ResumeScorer._calculate_semantic_similarity_score`
(scoring.py lines 326-355): embeddings comparison when a manager is present,
falling back to keyword similarity when absent or on error. -/
def calculate_semantic_similarity_score (sc : ResumeScorer) (resume : Resume)
    (job_description : String) : ℚ :=
  match sc.embeddings_manager with
  | none => fallback_text_similarity resume job_description
  | some f =>
    match f resume job_description with
    | .ok v => v
    | .error _ => fallback_text_similarity resume job_description

/-- `ResumeScorer.score_resume` (scoring.py lines 118-192).  A `none`
requirement argument triggers extraction from the job description, exactly
as Python's `None` defaults do. -/
def score_resume (sc : ResumeScorer) (resume : Resume)
    (job_description : String)
    (required_skills : Option (List String))
    (required_experience : Option ℚ)
    (required_degree : Option String) : ScoreBreakdown :=
  let required_skills :=
    match required_skills with
    | some l => l
    | none => extract_skills_from_text job_description
  let required_experience :=
    match required_experience with
    | some v => some v
    | none => extract_required_experience job_description
  let required_degree :=
    match required_degree with
    | some v => some v
    | none => extract_required_degree job_description
  match calculate_skill_match_score resume.skills required_skills with
  | (skill_score, matched_skills, missing_skills) =>
    let experience_score :=
      calculate_experience_score resume.experience_years required_experience
    let education_score :=
      calculate_education_score resume.education required_degree
    let semantic_score :=
      calculate_semantic_similarity_score sc resume job_description
    let final_score :=
      sc.skill_weight * skill_score +
      sc.experience_weight * experience_score +
      sc.education_weight * education_score +
      sc.semantic_weight * semantic_score
    ⟨skill_score, experience_score, education_score, semantic_score,
     final_score, matched_skills, missing_skills, resume.experience_years,
     required_experience, decide (0 < education_score)⟩

/-- The comparison `list.sort(key=lambda x: x[1].final_score, reverse=True)`
sorts by: `x` may come before `y` when `y`'s final score is at most `x`'s. -/
def finalScoreDescB (x y : Resume × ScoreBreakdown) : Bool :=
  decide (y.2.final_score ≤ x.2.final_score)

/-- `ResumeScorer.batch_score_resumes` (scoring.py lines 737-773): score each
resume, then sort by final score descending.  CPython's `list.sort` is a
stable sort, and with `reverse=True` equal keys still keep their original
order; it is modelled by the stable `List.mergeSort`. -/
def batch_score_resumes (sc : ResumeScorer) (resumes : List Resume)
    (job_description : String)
    (required_skills : Option (List String))
    (required_experience : Option ℚ)
    (required_degree : Option String) :
    List (Resume × ScoreBreakdown) :=
  (resumes.map (fun r =>
    (r, score_resume sc r job_description required_skills required_experience
          required_degree))).mergeSort finalScoreDescB

/-! ## `bias_detection.py`

Python exceptions are modelled with `Except String`: every `/` whose
denominator can be zero goes through `pydiv` (`ZeroDivisionError`), and
`Counter.most_common(1)[0]` on an empty counter is an `IndexError`.
`BiasFlag`'s free-text `message`, `recommendation` and numeric `details`
payloads are elided; a flag is identified by severity, category and the
affected-candidate list. -/

/-- `BiasFlag` (bias_detection.py lines 12-20), free text elided. -/
structure BiasFlag where
  severity : String
  category : String
  affected_candidates : List String
deriving Repr, DecidableEq

/-- `BiasReport` (bias_detection.py lines 23-60), free-text summary elided. -/
structure BiasReport where
  total_candidates : ℕ
  flags : List BiasFlag
deriving Repr, DecidableEq

/-- `BiasDetector.__init__` thresholds (bias_detection.py lines 66-82). -/
structure BiasDetector where
  missing_field_threshold : ℚ
  variance_threshold : ℚ
  score_spread_threshold : ℚ
deriving Repr, DecidableEq

/-- The default thresholds `0.3`, `0.7`, `0.6`. -/
def defaultDetector : BiasDetector := ⟨3/10, 7/10, 6/10⟩

/-- Python `/` on numbers: `ZeroDivisionError` on a zero denominator. -/
def pydiv (a b : ℚ) : Except String ℚ :=
  if b = 0 then .error "ZeroDivisionError" else .ok (a / b)

/-- Python truthiness of an optional string (absent, `None` and `""` are
falsy). -/
def optStrTruthy : Option String → Bool
  | none => false
  | some s => s ≠ ""

/-- `resume.get("name", "Unknown")`. -/
def nameOf (r : Resume) : String := r.name.getD "Unknown"

/-- Missing-field test of `_check_missing_fields` (bias_detection.py lines
141-151) for the string fields `name` / `email`: `None` or empty is
missing. -/
def strFieldMissing (v : Option String) : Bool := !optStrTruthy v

/-- One field's pass of `_check_missing_fields`: collect the missing
candidates; when there are any, divide by the cohort size and flag at the
threshold (`critical` from a 50% rate). -/
def checkOneMissingField (det : BiasDetector) (resumes : List Resume)
    (missingOf : Resume → Bool) : Except String (List BiasFlag) := do
  let missing := (resumes.filter missingOf).map nameOf
  if missing = [] then
    pure []
  else do
    let rate ← pydiv (missing.length : ℚ) (resumes.length : ℚ)
    if det.missing_field_threshold ≤ rate then
      pure [⟨if (1 : ℚ)/2 ≤ rate then "critical" else "warning",
            "missing_data", missing⟩]
    else
      pure []

/-- `BiasDetector._check_missing_fields` (bias_detection.py lines 132-172),
over the critical fields `name`, `email`, `skills`, `experience_years`
(a zero `experience_years` is explicitly not missing). -/
def check_missing_fields (det : BiasDetector) (resumes : List Resume) :
    Except String (List BiasFlag) := do
  let f1 ← checkOneMissingField det resumes (fun r => strFieldMissing r.name)
  let f2 ← checkOneMissingField det resumes (fun r => strFieldMissing r.email)
  let f3 ← checkOneMissingField det resumes (fun r => r.skills = [])
  let f4 ← checkOneMissingField det resumes (fun r => r.experience_years = none)
  pure (f1 ++ f2 ++ f3 ++ f4)

/-- `BiasDetector._check_experience_variance` (bias_detection.py lines
174-224).  The source compares `stdev/mean > threshold` with
`stdev = sqrt(sample variance)`; the comparison is carried out here on
squares, which is equivalent for a positive mean and a nonnegative
threshold (and for a negative threshold the comparison always holds since
`cv ≥ 0`, while for a negative mean the source sets `cv = 0`). -/
def check_experience_variance (det : BiasDetector) (resumes : List Resume) :
    List BiasFlag :=
  let xs := resumes.filterMap (·.experience_years)
  if xs.length < 2 then []
  else
    let mean := xs.sum / (xs.length : ℚ)
    if mean = 0 then []
    else
      let svar := (xs.map (fun x => (x - mean) ^ 2)).sum / ((xs.length : ℚ) - 1)
      let cvExceeds : Bool :=
        if 0 < mean then
          decide (det.variance_threshold < 0) ||
          decide (det.variance_threshold ^ 2 * mean ^ 2 < svar)
        else
          decide (det.variance_threshold < 0)
      if cvExceeds then [⟨"warning", "variance", []⟩] else []

/-- The education level bucket of one resume (bias_detection.py lines
240-253): keyword search over the lowercased degree strings. -/
def eduLevelOf (r : Resume) : String :=
  if r.education = [] then "none"
  else
    let degrees := r.education.map (fun e => pyLower (e.degree.getD ""))
    if degrees.any (fun d => substrB "phd" d || substrB "doctorate" d) then "phd"
    else if degrees.any (fun d =>
      substrB "master" d || substrB "mba" d || substrB "ms" d || substrB "ma" d)
      then "master"
    else if degrees.any (fun d =>
      substrB "bachelor" d || substrB "bs" d || substrB "ba" d) then "bachelor"
    else if degrees.any (fun d => substrB "associate" d) then "associate"
    else "other"

/-- `Counter(l).most_common(1)[0]` for a nonempty `l`: the first-inserted
value of maximal multiplicity (CPython's `most_common` sorts stably by
descending count over insertion-ordered items). -/
def mostCommonPure (l : List String) : String × ℕ :=
  match l.dedup with
  | [] => ("", 0)
  | c :: _ =>
    l.dedup.foldl
      (fun best x => if best.2 < l.count x then (x, l.count x) else best)
      (c, l.count c)

/-- `Counter(l).most_common(1)[0]`, raising `IndexError` on an empty
counter. -/
def mostCommon (l : List String) : Except String (String × ℕ) :=
  if l = [] then .error "IndexError" else .ok (mostCommonPure l)

/-- `BiasDetector._check_education_patterns` (bias_detection.py lines
226-289).  The missing-education rate `len(no_education_candidates) /
len(resumes)` (line 256) is computed unconditionally, so an empty cohort
divides zero by zero. -/
def check_education_patterns (det : BiasDetector) (resumes : List Resume) :
    Except String (List BiasFlag) := do
  let education_levels := resumes.map eduLevelOf
  let no_education := (resumes.filter (fun r => r.education = [])).map nameOf
  let rate ← pydiv (no_education.length : ℚ) (resumes.length : ℚ)
  let f1 :=
    if det.missing_field_threshold ≤ rate then
      [(⟨"warning", "missing_data", no_education⟩ : BiasFlag)]
    else []
  let mc ← mostCommon education_levels
  let rate2 ← pydiv (mc.2 : ℚ) (education_levels.length : ℚ)
  let f2 :=
    if (8 : ℚ)/10 < rate2 && 5 ≤ resumes.length then
      [(⟨"info", "pattern", []⟩ : BiasFlag)]
    else []
  pure (f1 ++ f2)

/-- `BiasDetector._check_skill_diversity` (bias_detection.py lines 291-339). -/
def check_skill_diversity (det : BiasDetector) (resumes : List Resume) :
    List BiasFlag :=
  let all_skills : Finset String :=
    resumes.foldl (fun acc r => acc ∪ r.skills.toFinset) ∅
  let skill_counts := resumes.map (fun r => (r.skills.length : ℚ))
  if all_skills = ∅ then
    [⟨"critical", "missing_data", resumes.map nameOf⟩]
  else
    let avg :=
      if skill_counts = [] then 0 else skill_counts.sum / (skill_counts.length : ℚ)
    if avg < 3 && 3 ≤ resumes.length then
      [⟨"warning", "missing_data",
        (resumes.filter (fun r => r.skills.length < 3)).map nameOf⟩]
    else []

/-- A score-breakdown dict as passed to the auditor: only its
`final_score` key is read, with default `0` (`s.get("final_score", 0)`). -/
structure ScoreRecord where
  final_score : Option ℚ
deriving Repr, DecidableEq

/-- Python `max` of a list (callers guard nonemptiness). -/
def pymax : List ℚ → ℚ
  | [] => 0
  | x :: xs => xs.foldl max x

/-- Python `min` of a list (callers guard nonemptiness). -/
def pymin : List ℚ → ℚ
  | [] => 0
  | x :: xs => xs.foldl min x

/-- `BiasDetector._check_scoring_patterns` (bias_detection.py lines
341-396): the clustering warning requires at least 3 score records, a
spread below the threshold, and at least 5 resumes; the near-perfect-score
notice requires more than 30% of candidates at `final_score ≥ 0.99`. -/
def check_scoring_patterns (det : BiasDetector) (resumes : List Resume)
    (score_breakdowns : List ScoreRecord) : List BiasFlag :=
  if score_breakdowns.length < 3 then []
  else
    let final_scores := score_breakdowns.map (fun s => s.final_score.getD 0)
    if final_scores = [] then []
    else
      let score_range := pymax final_scores - pymin final_scores
      let f1 :=
        if score_range < det.score_spread_threshold && 5 ≤ resumes.length then
          [(⟨"warning", "pattern", []⟩ : BiasFlag)]
        else []
      let perfect :=
        ((resumes.zip score_breakdowns).filter
          (fun rs => (99 : ℚ)/100 ≤ rs.2.final_score.getD 0)).map
          (fun rs => nameOf rs.1)
      let f2 :=
        if (resumes.length : ℚ) * (3/10) < (perfect.length : ℚ) then
          [(⟨"info", "pattern", perfect⟩ : BiasFlag)]
        else []
      f1 ++ f2

/-- Truthiness of the six key fields of `_check_parsing_quality`
(`experience_years` equal to `0` is falsy there). -/
def presentCount (r : Resume) : ℕ :=
  ([optStrTruthy r.name, optStrTruthy r.email, optStrTruthy r.phone,
    !decide (r.skills = []),
    (match r.experience_years with
     | none => false
     | some x => !decide (x = 0)),
    !decide (r.education = [])].filter id).length

/-- `BiasDetector._check_parsing_quality` (bias_detection.py lines 398-426):
flag candidates with fewer than half (3 of 6) key fields present.  (The
`incomplete_rate` in the elided details divides by the cohort size, which
is nonzero whenever the guard `incomplete_candidates` is nonempty.) -/
def check_parsing_quality (det : BiasDetector) (resumes : List Resume) :
    List BiasFlag :=
  let incomplete := (resumes.filter (fun r => presentCount r < 3)).map nameOf
  if incomplete = [] then [] else [⟨"warning", "parsing_quality", incomplete⟩]

/-- The common-provider domains of `_check_data_consistency`. -/
def commonDomains : List String :=
  ["gmail.com", "yahoo.com", "hotmail.com", "outlook.com"]

/-- `BiasDetector._check_data_consistency` (bias_detection.py lines
428-476): duplicate-name detection and email-domain concentration. -/
def check_data_consistency (det : BiasDetector) (resumes : List Resume) :
    List BiasFlag :=
  let names := (resumes.filter (fun r => optStrTruthy r.name)).map
    (fun r => pyStrip (pyLower (r.name.getD "")))
  let duplicates := names.dedup.filter (fun n => 1 < names.count n)
  let f1 :=
    if duplicates = [] then []
    else [(⟨"warning", "consistency", duplicates⟩ : BiasFlag)]
  let emails := (resumes.filter (fun r => optStrTruthy r.email)).map
    (fun r => pyLower (r.email.getD ""))
  let f2 :=
    if emails = [] then []
    else
      let domains := emails.map (fun e =>
        if substrB "@" e then (⟨(splitOnChar '@' e.data).getD 1 []⟩ : String) else "")
      let mcd := mostCommonPure domains
      if mcd.1 ∉ commonDomains ∧
         (7 : ℚ)/10 < (mcd.2 : ℚ) / (emails.length : ℚ) ∧
         5 ≤ resumes.length then
        [(⟨"info", "pattern", []⟩ : BiasFlag)]
      else []
  f1 ++ f2

/-- `BiasDetector.generate_report` (bias_detection.py lines 84-130): run the
seven checks in source order (the scoring check only when score breakdowns
are supplied and nonempty, Python's `if score_breakdowns:`), concatenate
their flags, and report the cohort size. -/
def generate_report (det : BiasDetector) (resumes : List Resume)
    (score_breakdowns : Option (List ScoreRecord)) :
    Except String BiasReport := do
  let f1 ← check_missing_fields det resumes
  let f2 := check_experience_variance det resumes
  let f3 ← check_education_patterns det resumes
  let f4 := check_skill_diversity det resumes
  let f5 :=
    match score_breakdowns with
    | none => []
    | some bds =>
      if bds = [] then [] else check_scoring_patterns det resumes bds
  let f6 := check_parsing_quality det resumes
  let f7 := check_data_consistency det resumes
  pure ⟨resumes.length, f1 ++ f2 ++ f3 ++ f4 ++ f5 ++ f6 ++ f7⟩

/-! ## `embeddings.py`: cosine similarity

The vector mathematics is modelled over ℝ; a numpy vector of dimension `n`
is `Fin n → ℝ`. -/

/-- `np.dot(a, b)`. -/
noncomputable def npDot {n : ℕ} (a b : Fin n → ℝ) : ℝ := ∑ i, a i * b i

/-- `np.linalg.norm(a)`: the Euclidean norm. -/
noncomputable def npNorm {n : ℕ} (a : Fin n → ℝ) : ℝ :=
  Real.sqrt (∑ i, a i ^ 2)

/-- `EmbeddingsManager._cosine_similarity` (embeddings.py lines 480-483):
`np.dot(a, b) / (np.linalg.norm(a) * np.linalg.norm(b))`, with no clamping. -/
noncomputable def cosine_similarity {n : ℕ} (a b : Fin n → ℝ) : ℝ :=
  npDot a b / (npNorm a * npNorm b)

/-- `EmbeddingsManager.compare_resume_to_job` (embeddings.py lines 426-452):
the cosine similarity of the two embeddings the external model produces for
the canonical resume text and for the job text.  The model and the text
canonicalization are external collaborators, abstracted as functions. -/
noncomputable def compare_resume_to_job {n : ℕ} (embed : String → Fin n → ℝ)
    (create_resume_text : Resume → String) (resume : Resume)
    (job_description : String) : ℝ :=
  cosine_similarity (embed (create_resume_text resume)) (embed job_description)

/-! ## Theorems -/

/-- Claim C1 (code bug evidence): at the failing input
`resume_experience = 5`, `required_experience = 3` the code's
`min(1.0, 1.0 + excess)` cap yields exactly `1.0`, while the spec's formula
`1.0 + min(excess/required, 0.2)` — and the repository's own test
`test_experience_score_meets_requirement`, which asserts the score is
strictly greater than `1.0` — require `1.2`. -/
theorem experience_score_capped_at_failing_input :
    calculate_experience_score (some 5) (some 3) = 1 ∧
    ¬ 1 < calculate_experience_score (some 5) (some 3) := by
  constructor <;> norm_num [calculate_experience_score, min_def]

/-- Claim C2 (code bug evidence): on the empty cohort (with or without the
optional score breakdowns) `generate_report` raises `ZeroDivisionError`
(the unguarded `len(no_education_candidates) / len(resumes)` of
`_check_education_patterns`, bias_detection.py line 256) instead of
returning a report with `total_candidates = 0` and no flags, as the claim
and the repository's own `test_empty_resumes` require. -/
theorem generate_report_empty_cohort_raises :
    generate_report defaultDetector [] none =
      Except.error "ZeroDivisionError" ∧
    generate_report defaultDetector [] (some []) =
      Except.error "ZeroDivisionError" := by
  constructor <;> rfl

/-- Claim C9: serializing a `ScoreBreakdown` to its flat dict record and
reconstructing from that record restores every field exactly. -/
theorem score_breakdown_round_trip (b : ScoreBreakdown) :
    ScoreBreakdown.of_dict (ScoreBreakdown.to_dict b) = some b := by
  cases b
  rfl

/-- Claim C10: a required experience of exactly `0` is treated like no
requirement — every candidate, including one with unknown (`None`)
experience, receives the full experience score `1.0`. -/
theorem experience_score_zero_requirement (resume_experience : Option ℚ) :
    calculate_experience_score resume_experience (some 0) = 1 := rfl

/-- Claim C5: the skill score is `|matched| / |required|` on the
case-insensitively lowercased, whitespace-trimmed skill sets (the matched
set being their intersection, the denominator the normalized required set's
size), `1.0` when no skills are required; including the claim's three
concrete examples. -/
theorem skill_match_score_set_ratio :
    (∀ resume_skills required_skills : List String,
      (calculate_skill_match_score resume_skills required_skills).1 =
        if required_skills = [] then 1
        else (((resume_skills.map normSkill).toFinset ∩
                (required_skills.map normSkill).toFinset).card : ℚ) /
             ((required_skills.map normSkill).toFinset.card : ℚ)) ∧
    (calculate_skill_match_score ["Python", "AWS"] ["Python", "AWS"]).1 = 1 ∧
    (calculate_skill_match_score [] ["Python"]).1 = 0 ∧
    (∀ resume_skills : List String,
      (calculate_skill_match_score resume_skills []).1 = 1) := by
  have hgen : ∀ resume_skills required_skills : List String,
      (calculate_skill_match_score resume_skills required_skills).1 =
        if required_skills = [] then 1
        else (((resume_skills.map normSkill).toFinset ∩
                (required_skills.map normSkill).toFinset).card : ℚ) /
             ((required_skills.map normSkill).toFinset.card : ℚ) := by
    intro rs req
    by_cases h : req = []
    · simp [calculate_skill_match_score, h]
    · have hm : (req.map normSkill).toFinset.card ≠ 0 := by
        cases req with
        | nil => exact absurd rfl h
        | cons a t =>
          exact Finset.card_ne_zero_of_mem
            (List.mem_toFinset.mpr (List.mem_map_of_mem normSkill (List.mem_cons_self a t)))
      simp [calculate_skill_match_score, h, hm]
  refine ⟨hgen, ?_, ?_, fun rs => by simp [calculate_skill_match_score]⟩
  · have h1 : (((["Python", "AWS"].map normSkill).toFinset : Finset String) ∩
        (["Python", "AWS"].map normSkill).toFinset).card = 2 := rfl
    have h2 : ((["Python", "AWS"].map normSkill).toFinset : Finset String).card = 2 := rfl
    rw [hgen, if_neg (by simp), h1, h2]
    norm_num
  · have h1 : (((([] : List String).map normSkill).toFinset : Finset String) ∩
        (["Python"].map normSkill).toFinset).card = 0 := rfl
    rw [hgen, if_neg (by simp), h1]
    norm_num

/-- Claim C3: constructing the scorer fails with a configuration error if
and only if the four weights do not sum to `1.0` within `np.isclose`'s
floating tolerance (`|total - 1| ≤ 1e-8 + 1e-5·|1|`); for weights summing
exactly to `1.0` construction always succeeds, returning the scorer (so the
validation happens at construction time; the scoring functions themselves
are total). -/
theorem scorer_weight_validation :
    ∀ (w1 w2 w3 w4 : ℚ) (mgr : Option (Resume → String → Except String ℚ)),
      ((∃ e, mkResumeScorer w1 w2 w3 w4 mgr = Except.error e) ↔
        ¬ |w1 + w2 + w3 + w4 - 1| ≤ 1e-8 + 1e-5) ∧
      (w1 + w2 + w3 + w4 = 1 →
        mkResumeScorer w1 w2 w3 w4 mgr = Except.ok ⟨w1, w2, w3, w4, mgr⟩) := by
  intro w1 w2 w3 w4 mgr
  constructor
  · by_cases h : |w1 + w2 + w3 + w4 - 1| ≤ 1e-8 + 1e-5
    · simp [mkResumeScorer, npIsClose, abs_one, mul_one, h]
    · simp [mkResumeScorer, npIsClose, abs_one, mul_one, h]
  · intro h
    have hle : |w1 + w2 + w3 + w4 - 1| ≤ 1e-8 + 1e-5 := by
      rw [h]
      norm_num
    simp [mkResumeScorer, npIsClose, abs_one, mul_one, hle]

/-- Witness for C3 at the default weights `0.35/0.25/0.15/0.25`. -/
theorem scorer_weight_validation_witness :
    mkResumeScorer (35/100) (25/100) (15/100) (25/100) none =
      Except.ok ⟨35/100, 25/100, 15/100, 25/100, none⟩ :=
  (scorer_weight_validation (35/100) (25/100) (15/100) (25/100) none).2
    (by norm_num)

/-- Auxiliary: in a key/level list whose levels are non-increasing, the
first entry accepted by `p` carries the maximal level among all accepted
entries. -/
theorem level_le_find_first {l : List (String × ℚ)} {p : String × ℚ → Bool}
    (hl : l.Pairwise (fun a b => b.2 ≤ a.2)) :
    ∀ kl ∈ l, p kl = true →
      kl.2 ≤ (match l.find? p with | some x => x.2 | none => 0) := by
  induction l with
  | nil => intro kl h; simp at h
  | cons a t ih =>
    intro kl hmem hp
    rcases List.pairwise_cons.mp hl with ⟨ha, ht⟩
    by_cases hpa : p a = true
    · rw [List.find?_cons_of_pos _ hpa]
      rcases List.mem_cons.mp hmem with rfl | hm
      · exact le_refl _
      · exact ha kl hm
    · rw [List.find?_cons_of_neg _ (by simp [hpa])]
      rcases List.mem_cons.mp hmem with rfl | hm
      · exact absurd hp hpa
      · exact ih ht kl hm hp

/-- Claim C6: the education score is binary (`0.0` or `1.0`); with no
required degree (or an empty one) it is `1.0`; with a required degree it is
`1.0` exactly when some listed degree's normalized text contains a degree
synonym of the fixed hierarchy whose level is at least the required
degree's resolved level.  The required degree resolves through its first
matching synonym in hierarchy order, which — the hierarchy being ordered by
non-increasing level — is its maximal matching level on the ordinal scale
(the fifth conjunct).  The claim's two examples close the statement. -/
theorem education_score_binary_iff :
    ∀ (resume_education : List Education) (rd : String),
      calculate_education_score resume_education none = 1 ∧
      calculate_education_score resume_education (some "") = 1 ∧
      (rd ≠ "" →
        (calculate_education_score resume_education (some rd) = 1 ↔
          ∃ e ∈ resume_education, ∃ kl ∈ degreeHierarchy,
            substrB kl.1 (pyStrip (pyLower (e.degree.getD ""))) = true ∧
            requiredLevelOf (pyStrip (pyLower rd)) ≤ kl.2)) ∧
      (calculate_education_score resume_education (some rd) = 0 ∨
        calculate_education_score resume_education (some rd) = 1) ∧
      (∀ kl ∈ degreeHierarchy, substrB kl.1 (pyStrip (pyLower rd)) = true →
        kl.2 ≤ requiredLevelOf (pyStrip (pyLower rd))) ∧
      calculate_education_score [⟨some "PhD in CS"⟩] (some "Master") = 1 ∧
      calculate_education_score [⟨some "Bachelor"⟩] (some "Master") = 0 := by
  intro edu rd
  refine ⟨rfl, rfl, ?_, ?_, ?_, by decide, by decide⟩
  · intro h
    by_cases he : edu = []
    · subst he
      simp [calculate_education_score, h]
    · rw [show calculate_education_score edu (some rd) =
          (if edu.any (fun e => degreeHierarchy.any (fun kl =>
              substrB kl.1 (pyStrip (pyLower (e.degree.getD ""))) &&
              decide (requiredLevelOf (pyStrip (pyLower rd)) ≤ kl.2))) = true
           then (1 : ℚ) else 0) by simp [calculate_education_score, h, he]]
      split_ifs with ha
      · refine iff_of_true rfl ?_
        simpa only [List.any_eq_true, Bool.and_eq_true, decide_eq_true_eq]
          using ha
      · refine iff_of_false (by norm_num) ?_
        intro hex
        exact ha (by
          simpa only [List.any_eq_true, Bool.and_eq_true, decide_eq_true_eq]
            using hex)
  · simp only [calculate_education_score]
    split_ifs <;> simp
  · intro kl hkl hsub
    have hp : degreeHierarchy.Pairwise (fun a b => b.2 ≤ a.2) := by decide
    simpa only [requiredLevelOf] using level_le_find_first hp kl hkl hsub

/-- Witness for C6 at a concrete input discharging its hypotheses. -/
theorem education_score_binary_iff_witness :
    calculate_education_score [⟨some "PhD in CS"⟩] (some "Master") = 1 :=
  ((education_score_binary_iff [⟨some "PhD in CS"⟩] "Master").2.2.1
    (by decide)).mpr (by decide)

/-- Claim C7 (counterexample): a cohort of exactly 3 candidates whose
supplied score breakdowns are clustered in a 0.02 spread (far below the
default 0.6 threshold) receives no clustering warning flag at all —
`_check_scoring_patterns` additionally requires at least 5 resumes
(bias_detection.py line 361), so the claim's "cohort of at least 3" is
refuted at this input. -/
theorem scoring_patterns_three_cohort_counterexample :
    check_scoring_patterns defaultDetector
        [{ name := some "Alice" }, { name := some "Bob" },
         { name := some "Carol" }]
        [⟨some 0.75⟩, ⟨some 0.76⟩, ⟨some 0.77⟩] = [] ∧
    pymax ([⟨some 0.75⟩, ⟨some 0.76⟩, (⟨some 0.77⟩ : ScoreRecord)].map
        (fun s => s.final_score.getD 0)) -
      pymin ([⟨some 0.75⟩, ⟨some 0.76⟩, (⟨some 0.77⟩ : ScoreRecord)].map
        (fun s => s.final_score.getD 0)) <
      defaultDetector.score_spread_threshold := by
  constructor
  · norm_num [check_scoring_patterns, pymax, pymin, defaultDetector, max_def,
      min_def]
  · norm_num [pymax, pymin, defaultDetector, max_def, min_def]

/-- Claim C7 (amended): the clustering warning flag is emitted if and only
if at least 3 score breakdowns are supplied, the cohort has at least 5
resumes, and `max(final_score) - min(final_score)` is below the configured
spread threshold — so for 3- and 4-candidate cohorts it is never emitted,
while for cohorts of 5 or more the claim's spread criterion holds as
stated. -/
theorem scoring_patterns_cluster_flag_iff :
    ∀ (det : BiasDetector) (resumes : List Resume)
      (score_breakdowns : List ScoreRecord),
      ((⟨"warning", "pattern", []⟩ : BiasFlag) ∈
          check_scoring_patterns det resumes score_breakdowns) ↔
        (3 ≤ score_breakdowns.length ∧ 5 ≤ resumes.length ∧
          pymax (score_breakdowns.map (fun s => s.final_score.getD 0)) -
            pymin (score_breakdowns.map (fun s => s.final_score.getD 0)) <
            det.score_spread_threshold) := by
  intro det resumes bds
  by_cases hlen : bds.length < 3
  · simp only [check_scoring_patterns, if_pos hlen]
    simp
    omega
  · have h3 : 3 ≤ bds.length := by omega
    have hne : bds.map (fun s => s.final_score.getD 0) ≠ [] := by
      cases bds with
      | nil => simp at hlen
      | cons a t => simp
    simp only [check_scoring_patterns, if_neg hlen, if_neg hne]
    constructor
    · intro hmem
      rcases List.mem_append.mp hmem with hm | hm
      · split_ifs at hm with hcond
        · simp only [Bool.and_eq_true, decide_eq_true_eq] at hcond
          exact ⟨h3, hcond.2, hcond.1⟩
        · simp at hm
      · split_ifs at hm with hcond
        · simp at hm
        · simp at hm
    · rintro ⟨-, h5, hsp⟩
      apply List.mem_append.mpr
      left
      rw [if_pos]
      · exact List.mem_singleton.mpr rfl
      · simp only [Bool.and_eq_true, decide_eq_true_eq]
        exact ⟨hsp, h5⟩

/-- Witness for C7's amended statement at a concrete 5-candidate cohort. -/
theorem scoring_patterns_cluster_flag_iff_witness :
    (⟨"warning", "pattern", []⟩ : BiasFlag) ∈
      check_scoring_patterns defaultDetector
        [{ name := some "A" }, { name := some "B" }, { name := some "C" },
         { name := some "D" }, { name := some "E" }]
        [⟨some 0.75⟩, ⟨some 0.76⟩, ⟨some 0.77⟩] :=
  (scoring_patterns_cluster_flag_iff defaultDetector _ _).mpr
    ⟨by simp, by simp,
      by norm_num [pymax, pymin, defaultDetector, max_def, min_def]⟩

/-- Auxiliary: a stable sort leaves the sublist of entries sharing one key
untouched: filtering `mergeSort`'s output by a predicate whose holders are
pairwise `le`-related gives the same list as filtering the input. -/
theorem filter_mergeSort_of_const {α : Type} (le : α → α → Bool)
    (htrans : ∀ a b c, le a b → le b c → le a c)
    (htotal : ∀ a b, le a b || le b a)
    (p : α → Bool) (hp : ∀ x y, p x = true → p y = true → le x y = true)
    (l : List α) :
    (l.mergeSort le).filter p = l.filter p := by
  have hc : (l.filter p).Pairwise (fun a b => le a b) :=
    List.pairwise_of_forall_mem_list (fun a ha b hb =>
      hp a b (List.of_mem_filter ha) (List.of_mem_filter hb))
  have h1 : List.Sublist (l.filter p) (l.mergeSort le) :=
    List.sublist_mergeSort htrans htotal hc (List.filter_sublist l)
  have h2 : List.Sublist (l.filter p) ((l.mergeSort le).filter p) := by
    have h := h1.filter p
    rwa [List.filter_eq_self.mpr (fun a ha => List.of_mem_filter ha)] at h
  have h3 : ((l.mergeSort le).filter p).length = (l.filter p).length :=
    ((List.mergeSort_perm l le).filter p).length_eq
  exact (h2.eq_of_length h3.symm).symm

/-- Claim C4: batch scoring returns exactly the input's scored pairs
(a permutation of the map), sorted by `final_score` in descending order
(pairwise non-increasing), and stably so: for every score value, the
sublist of pairs carrying that exact `final_score` is the same, in the same
order, as in the input's scored list. -/
theorem batch_score_resumes_sorted_stable :
    ∀ (sc : ResumeScorer) (resumes : List Resume) (job_description : String)
      (required_skills : Option (List String)) (required_experience : Option ℚ)
      (required_degree : Option String),
      (batch_score_resumes sc resumes job_description required_skills
          required_experience required_degree).Perm
        (resumes.map (fun r => (r, score_resume sc r job_description
          required_skills required_experience required_degree))) ∧
      (batch_score_resumes sc resumes job_description required_skills
          required_experience required_degree).Pairwise
        (fun x y => y.2.final_score ≤ x.2.final_score) ∧
      (∀ q : ℚ,
        (batch_score_resumes sc resumes job_description required_skills
            required_experience required_degree).filter
          (fun x => decide (x.2.final_score = q)) =
        (resumes.map (fun r => (r, score_resume sc r job_description
            required_skills required_experience required_degree))).filter
          (fun x => decide (x.2.final_score = q))) := by
  intro sc resumes jd rs re rd
  have htrans : ∀ a b c : Resume × ScoreBreakdown,
      finalScoreDescB a b → finalScoreDescB b c → finalScoreDescB a c := by
    intro a b c
    simp only [finalScoreDescB, decide_eq_true_eq]
    exact fun h1 h2 => le_trans h2 h1
  have htotal : ∀ a b : Resume × ScoreBreakdown,
      finalScoreDescB a b || finalScoreDescB b a := by
    intro a b
    simp only [finalScoreDescB, Bool.or_eq_true, decide_eq_true_eq]
    exact le_total _ _
  refine ⟨List.mergeSort_perm _ _, ?_, ?_⟩
  · have h := List.sorted_mergeSort htrans htotal
      (resumes.map (fun r => (r, score_resume sc r jd rs re rd)))
    exact h.imp (fun hxy => by
      simpa only [finalScoreDescB, decide_eq_true_eq] using hxy)
  · intro q
    exact filter_mergeSort_of_const finalScoreDescB htrans htotal
      (fun x => decide (x.2.final_score = q))
      (fun x y hx hy => by
        simp only [decide_eq_true_eq] at hx hy
        simp [finalScoreDescB, hx, hy])
      (resumes.map (fun r => (r, score_resume sc r jd rs re rd)))

/-- Claim C8 (counterexample): on the one-dimensional embedding vectors
`[1]` and `[-1]`, `_cosine_similarity` returns `-1`, which lies outside
`[0, 1]` — the function performs no clamping, so its range is `[-1, 1]`,
not `[0, 1]`. -/
theorem cosine_similarity_not_in_unit_interval :
    cosine_similarity ![(1 : ℝ)] ![(-1 : ℝ)] = -1 ∧
    ¬ (0 ≤ cosine_similarity ![(1 : ℝ)] ![(-1 : ℝ)] ∧
       cosine_similarity ![(1 : ℝ)] ![(-1 : ℝ)] ≤ 1) := by
  have h : cosine_similarity ![(1 : ℝ)] ![(-1 : ℝ)] = -1 := by
    norm_num [cosine_similarity, npDot, npNorm, Fin.sum_univ_one,
      Real.sqrt_one]
  exact ⟨h, by rw [h]; norm_num⟩

/-- Claim C8 (amended): for any two embedding vectors with nonzero norms,
the pairwise cosine similarity lies in the closed interval `[-1, 1]`
(Cauchy-Schwarz); the `[0, 1]` range of the claim holds only for the lower
bound `-1` replaced by `0` when the vectors' inner product is nonnegative,
which the code does not enforce. -/
theorem cosine_similarity_in_closed_interval :
    ∀ (n : ℕ) (a b : Fin n → ℝ), npNorm a ≠ 0 → npNorm b ≠ 0 →
      -1 ≤ cosine_similarity a b ∧ cosine_similarity a b ≤ 1 := by
  intro n a b ha hb
  have hna : 0 ≤ npNorm a := Real.sqrt_nonneg _
  have hnb : 0 ≤ npNorm b := Real.sqrt_nonneg _
  have hpa : 0 < npNorm a := lt_of_le_of_ne hna (Ne.symm ha)
  have hpb : 0 < npNorm b := lt_of_le_of_ne hnb (Ne.symm hb)
  have habs : |npDot a b| ≤ npNorm a * npNorm b := by
    have hcs : (npDot a b) ^ 2 ≤ (∑ i, a i ^ 2) * (∑ i, b i ^ 2) :=
      Finset.sum_mul_sq_le_sq_mul_sq Finset.univ a b
    calc |npDot a b| = Real.sqrt ((npDot a b) ^ 2) :=
          (Real.sqrt_sq_eq_abs _).symm
      _ ≤ Real.sqrt ((∑ i, a i ^ 2) * (∑ i, b i ^ 2)) :=
          Real.sqrt_le_sqrt hcs
      _ = npNorm a * npNorm b := by
          rw [npNorm, npNorm,
            Real.sqrt_mul (Finset.sum_nonneg (fun i _ => sq_nonneg (a i)))]
  have hb1 : |cosine_similarity a b| ≤ 1 := by
    rw [cosine_similarity, abs_div, abs_of_nonneg (mul_nonneg hna hnb)]
    exact (div_le_one (mul_pos hpa hpb)).mpr habs
  exact abs_le.mp hb1

/-- Witness for C8's amended statement at the concrete vectors `[1]`,
`[1]`. -/
theorem cosine_similarity_in_closed_interval_witness :
    -1 ≤ cosine_similarity ![(1 : ℝ)] ![(1 : ℝ)] ∧
    cosine_similarity ![(1 : ℝ)] ![(1 : ℝ)] ≤ 1 :=
  cosine_similarity_in_closed_interval 1 ![(1 : ℝ)] ![(1 : ℝ)]
    (by norm_num [npNorm, Fin.sum_univ_one, Real.sqrt_one])
    (by norm_num [npNorm, Fin.sum_univ_one, Real.sqrt_one])

end ResumeScreening
